import Mathlib

/-!
Shallow embedding of the set-overlap similarity engine (`ssi/analysis/overlap.py`).

Modelling conventions:
* a Python `set` of comparable elements is a `Finset α` with decidable equality;
* an argument that may be `None` is an `Option (Finset α)`; Python truthiness
  (`not left_set` is true for both `None` and the empty set) is modelled by
  `normalizeSet`;
* Python's true division `x / y`, which raises `ZeroDivisionError` when `y = 0`,
  is modelled by `truediv : ℚ → ℚ → Option ℚ` returning `none` exactly on a zero
  divisor; floats are modelled as exact rationals;
* a pandas DataFrame holding a store-id column and a product-id column is a
  `StoreFrame` (two equal-length columns); `series.values[0]` is `List.head?`
  (`none` models the `IndexError` on an empty frame) and `set(series.values)`
  is `List.toFinset`.
-/

namespace Overlap

variable {α : Type} [DecidableEq α]

/-- `set() if not s else s` for an argument that may be `None` or an empty set:
Python truthiness collapses both to the empty set. -/
def normalizeSet (s : Option (Finset α)) : Finset α :=
  match s with
  | none => ∅
  | some t => if t = ∅ then ∅ else t

/-- `handle_missing_sets`: replace each absent (falsy) input with the empty set. -/
def handle_missing_sets (left_set right_set : Option (Finset α)) :
    Finset α × Finset α :=
  (normalizeSet left_set, normalizeSet right_set)

/-- Python true division over exact rationals: `none` models `ZeroDivisionError`. -/
def truediv (x y : ℚ) : Option ℚ :=
  if y = 0 then none else some (x / y)

/-- `__handle_zero_length_sets`: the shared zero-length dispatch applied before
every symmetric metric's core formula. -/
def handle_zero_length_sets (left_set right_set : Option (Finset α))
    (overlap_function : Finset α → Finset α → Option ℚ)
    (default_exact_match : ℚ) (default_empty_match : ℚ) : Option ℚ :=
  let p := handle_missing_sets left_set right_set
  if p.1.card = 0 ∧ p.2.card = 0 then some default_exact_match
  else if p.1 = p.2 then some default_exact_match
  else if p.1.card = 0 ∨ p.2.card = 0 then some default_empty_match
  else overlap_function p.1 p.2

/-- `jaccard_similarity`: `|A ∩ B| / |A ∪ B|` behind the zero-length dispatch. -/
def jaccard_similarity (left_set right_set : Option (Finset α)) : Option ℚ :=
  handle_zero_length_sets left_set right_set
    (fun ls rs => truediv ((ls ∩ rs).card : ℚ) ((ls ∪ rs).card : ℚ)) 1 0

/-- `jaccard_index`: `|A ∩ B| / (|A| + |B| - |A ∩ B|)` behind the dispatch. -/
def jaccard_index (left_set right_set : Option (Finset α)) : Option ℚ :=
  handle_zero_length_sets left_set right_set
    (fun ls rs =>
      truediv ((ls ∩ rs).card : ℚ)
        ((ls.card : ℚ) + (rs.card : ℚ) - ((ls ∩ rs).card : ℚ))) 1 0

/-- `dice_coefficient`: `2 · |A ∩ B| / (|A| + |B|)` behind the dispatch. -/
def dice_coefficient (left_set right_set : Option (Finset α)) : Option ℚ :=
  handle_zero_length_sets left_set right_set
    (fun ls rs =>
      truediv (2 * ((ls ∩ rs).card : ℚ)) ((ls.card : ℚ) + (rs.card : ℚ))) 1 0

/-- `overlap_coefficient`: `|A ∩ B| / min (|A|, |B|)` behind the dispatch. -/
def overlap_coefficient (left_set right_set : Option (Finset α)) : Option ℚ :=
  handle_zero_length_sets left_set right_set
    (fun ls rs =>
      truediv ((ls ∩ rs).card : ℚ) ((min ls.card rs.card : ℕ) : ℚ)) 1 0

/-- `percentage_overlap`: `|A ∩ B| / (|A| + |B|)` behind the dispatch, with the
dispatch's result (defaults included) scaled by 100 afterwards. -/
def percentage_overlap (left_set right_set : Option (Finset α)) : Option ℚ :=
  (handle_zero_length_sets left_set right_set
    (fun ls rs =>
      truediv ((ls ∩ rs).card : ℚ) ((ls.card : ℚ) + (rs.card : ℚ))) 1 0).map
    (fun x => x * 100)

/-- `asymmetrical_overlap`: `|A ∩ B| / |A|`, with no dispatch in front; dividing
by zero (empty `A`) raises, modelled by `none`. -/
def asymmetrical_overlap (left_set right_set : Finset α) : Option ℚ :=
  truediv (((left_set ∩ right_set).card : ℚ)) ((left_set.card : ℚ))

/-- A store's DataFrame restricted to the two columns the driver reads: the
store-id column and the product-id column. Pandas keeps all columns of a frame
at the same length. -/
structure StoreFrame (α : Type) where
  store_ids : List String
  product_ids : List α
  same_length : store_ids.length = product_ids.length

/-- `[store[store_id_column].values[0] for store in store_data]`: `none` models
the `IndexError` raised on a store whose frame has no rows. -/
def storeNames : List (StoreFrame α) → Option (List String)
  | [] => some []
  | s :: rest =>
    match s.store_ids.head?, storeNames rest with
    | some n, some ns => some (n :: ns)
    | _, _ => none

/-- `set(preprocess_function(store[product_id_column]).values)` for each store. -/
def storeSets (store_data : List (StoreFrame α))
    (preprocess_function : List α → List α) : List (Finset α) :=
  store_data.map fun s => (preprocess_function s.product_ids).toFinset

/-- One assignment `store_overlap[i, j] = v` into the matrix state; a cell that
was never assigned holds `none` (uninitialized `np.empty` storage). -/
def writeCell (M : Nat → Nat → Option ℚ) (i j : Nat) (v : ℚ) :
    Nat → Nat → Option ℚ :=
  fun a b => if a = i ∧ b = j then some v else M a b

/-- The nested loops `for row_index in range(n): for column_index in
range(row_index if not calculate_all_cells else 0, n)`, flattened into the list
of visited index pairs in visitation order. -/
def iterPairs (n : Nat) (calculate_all_cells : Bool) : List (Nat × Nat) :=
  (List.range n).flatMap fun row_index =>
    (List.range' (if calculate_all_cells then 0 else row_index)
      (n - (if calculate_all_cells then 0 else row_index))).map
      fun column_index => (row_index, column_index)

/-- The loop body: compute the overlap for the pair and mirror it into both
cells; a `none` from the overlap function models an uncaught exception, which
aborts the whole computation. -/
def runLoop (overlap_function : Finset α → Finset α → Option ℚ)
    (sets : List (Finset α)) :
    List (Nat × Nat) → (Nat → Nat → Option ℚ) → Option (Nat → Nat → Option ℚ)
  | [], M => some M
  | ij :: rest, M =>
    match overlap_function (sets.getD ij.1 ∅) (sets.getD ij.2 ∅) with
    | none => none
    | some v =>
      runLoop overlap_function sets rest
        (writeCell (writeCell M ij.1 ij.2 v) ij.2 ij.1 v)

/-- `calculate_overlap_for_stores`: extract the store names (raising on an
empty frame), then fill the matrix pair by pair. The result pairs the
row/column labels with the cell contents, mirroring the returned labelled
DataFrame. -/
def calculate_overlap_for_stores (store_data : List (StoreFrame α))
    (overlap_function : Finset α → Finset α → Option ℚ)
    (preprocess_function : List α → List α)
    (calculate_all_cells : Bool) :
    Option (List String × (Nat → Nat → Option ℚ)) :=
  (storeNames store_data).bind fun ns =>
    (runLoop overlap_function (storeSets store_data preprocess_function)
      (iterPairs store_data.length calculate_all_cells) (fun _ _ => none)).map
      fun M => (ns, M)

/-- The default metric argument of the driver: `jaccard_index` applied to the
two honest (non-`None`) sets the driver builds. -/
def jaccardLift (s t : Finset α) : Option ℚ :=
  jaccard_index (some s) (some t)

/-- Proof-side replay of the loop for an overlap function that never fails:
the same writes, without the failure monad. -/
def runPure (g : Nat → Nat → ℚ) :
    List (Nat × Nat) → (Nat → Nat → Option ℚ) → (Nat → Nat → Option ℚ)
  | [], M => M
  | ij :: rest, M =>
    runPure g rest
      (writeCell (writeCell M ij.1 ij.2 (g ij.1 ij.2)) ij.2 ij.1 (g ij.1 ij.2))

theorem normalizeSet_some (s : Finset α) : normalizeSet (some s) = s := by
  unfold normalizeSet
  split <;> simp_all

theorem normalizeSet_none : normalizeSet (none : Option (Finset α)) = ∅ := rfl

theorem truediv_of_ne (x y : ℚ) (hy : y ≠ 0) : truediv x y = some (x / y) :=
  if_neg hy

theorem truediv_of_zero (x : ℚ) : truediv x 0 = none := if_pos rfl

omit [DecidableEq α] in
theorem card_cast_pos {s : Finset α} (h : s ≠ ∅) : 0 < (s.card : ℚ) := by
  have := Finset.card_pos.mpr (Finset.nonempty_iff_ne_empty.mpr h)
  exact_mod_cast this

/-- Closed form of the shared dispatch: the two exact-match branches merge into
the equality test (two empty sets are equal), then the one-empty branch, then
the core formula. -/
theorem handle_zero_length_sets_eq (l r : Option (Finset α))
    (f : Finset α → Finset α → Option ℚ) (de dm : ℚ) :
    handle_zero_length_sets l r f de dm =
      if normalizeSet l = normalizeSet r then some de
      else if normalizeSet l = ∅ ∨ normalizeSet r = ∅ then some dm
      else f (normalizeSet l) (normalizeSet r) := by
  unfold handle_zero_length_sets handle_missing_sets
  dsimp only
  simp only [Finset.card_eq_zero]
  by_cases h1 : normalizeSet l = normalizeSet r
  · by_cases h2 : normalizeSet l = (∅ : Finset α)
    · simp [h1, h2, h1 ▸ h2]
    · simp [h1, h2]
  · by_cases h2 : normalizeSet l = (∅ : Finset α) <;>
      by_cases h3 : normalizeSet r = (∅ : Finset α)
    · exact absurd (h2.trans h3.symm) h1
    · simp [h1, h2, h3]
    · simp [h1, h2, h3]
    · simp [h1, h2, h3]

theorem jaccard_similarity_eq (l r : Option (Finset α)) :
    jaccard_similarity l r =
      if normalizeSet l = normalizeSet r then some 1
      else if normalizeSet l = ∅ ∨ normalizeSet r = ∅ then some 0
      else
        truediv ((((normalizeSet l) ∩ (normalizeSet r)).card : ℚ))
          ((((normalizeSet l) ∪ (normalizeSet r)).card : ℚ)) :=
  handle_zero_length_sets_eq l r _ 1 0

theorem jaccard_index_eq (l r : Option (Finset α)) :
    jaccard_index l r =
      if normalizeSet l = normalizeSet r then some 1
      else if normalizeSet l = ∅ ∨ normalizeSet r = ∅ then some 0
      else
        truediv ((((normalizeSet l) ∩ (normalizeSet r)).card : ℚ))
          (((normalizeSet l).card : ℚ) + ((normalizeSet r).card : ℚ) -
            (((normalizeSet l) ∩ (normalizeSet r)).card : ℚ)) :=
  handle_zero_length_sets_eq l r _ 1 0

theorem dice_coefficient_eq (l r : Option (Finset α)) :
    dice_coefficient l r =
      if normalizeSet l = normalizeSet r then some 1
      else if normalizeSet l = ∅ ∨ normalizeSet r = ∅ then some 0
      else
        truediv (2 * (((normalizeSet l) ∩ (normalizeSet r)).card : ℚ))
          (((normalizeSet l).card : ℚ) + ((normalizeSet r).card : ℚ)) :=
  handle_zero_length_sets_eq l r _ 1 0

theorem overlap_coefficient_eq (l r : Option (Finset α)) :
    overlap_coefficient l r =
      if normalizeSet l = normalizeSet r then some 1
      else if normalizeSet l = ∅ ∨ normalizeSet r = ∅ then some 0
      else
        truediv ((((normalizeSet l) ∩ (normalizeSet r)).card : ℚ))
          (((min (normalizeSet l).card (normalizeSet r).card : ℕ) : ℚ)) :=
  handle_zero_length_sets_eq l r _ 1 0

theorem percentage_overlap_eq (l r : Option (Finset α)) :
    percentage_overlap l r =
      if normalizeSet l = normalizeSet r then some 100
      else if normalizeSet l = ∅ ∨ normalizeSet r = ∅ then some 0
      else
        (truediv ((((normalizeSet l) ∩ (normalizeSet r)).card : ℚ))
          (((normalizeSet l).card : ℚ) + ((normalizeSet r).card : ℚ))).map
          (fun x => x * 100) := by
  unfold percentage_overlap
  rw [handle_zero_length_sets_eq]
  by_cases h1 : normalizeSet l = normalizeSet r
  · simp [h1]
  · by_cases h2 : normalizeSet l = (∅ : Finset α) ∨ normalizeSet r = (∅ : Finset α) <;>
      simp [h1, h2]

/-- The dispatch is symmetric whenever the injected core formula is. -/
theorem handle_zero_length_sets_comm (l r : Option (Finset α))
    (f : Finset α → Finset α → Option ℚ) (de dm : ℚ)
    (hf : ∀ a b, f a b = f b a) :
    handle_zero_length_sets l r f de dm = handle_zero_length_sets r l f de dm := by
  rw [handle_zero_length_sets_eq, handle_zero_length_sets_eq]
  by_cases h1 : normalizeSet l = normalizeSet r
  · rw [if_pos h1, if_pos h1.symm]
  · have h1' : ¬ normalizeSet r = normalizeSet l := fun h => h1 h.symm
    rw [if_neg h1, if_neg h1']
    by_cases h2 : normalizeSet l = (∅ : Finset α) ∨ normalizeSet r = (∅ : Finset α)
    · rw [if_pos h2, if_pos (Or.symm h2)]
    · rw [if_neg h2, if_neg (fun h => h2 (Or.symm h)), hf]

theorem jaccard_similarity_comm (l r : Option (Finset α)) :
    jaccard_similarity l r = jaccard_similarity r l :=
  handle_zero_length_sets_comm l r _ 1 0 (fun a b => by
    rw [Finset.inter_comm, Finset.union_comm])

theorem jaccard_index_comm (l r : Option (Finset α)) :
    jaccard_index l r = jaccard_index r l :=
  handle_zero_length_sets_comm l r _ 1 0 (fun a b => by
    rw [Finset.inter_comm]
    ring_nf)

theorem dice_coefficient_comm (l r : Option (Finset α)) :
    dice_coefficient l r = dice_coefficient r l :=
  handle_zero_length_sets_comm l r _ 1 0 (fun a b => by
    rw [Finset.inter_comm, add_comm ((a.card : ℚ))])

theorem overlap_coefficient_comm (l r : Option (Finset α)) :
    overlap_coefficient l r = overlap_coefficient r l :=
  handle_zero_length_sets_comm l r _ 1 0 (fun a b => by
    rw [Finset.inter_comm, min_comm])

theorem percentage_overlap_comm (l r : Option (Finset α)) :
    percentage_overlap l r = percentage_overlap r l :=
  congrArg (Option.map _)
    (handle_zero_length_sets_comm l r _ 1 0 (fun a b => by
      rw [Finset.inter_comm, add_comm ((a.card : ℚ))]))

/-- Every symmetric metric produces a value on every pair of inputs: each core
formula is only reached with two non-empty, unequal sets, where its divisor is
non-zero. -/
theorem jaccard_similarity_total (l r : Option (Finset α)) :
    ∃ q, jaccard_similarity l r = some q := by
  rw [jaccard_similarity_eq]
  by_cases h1 : normalizeSet l = normalizeSet r
  · exact ⟨1, by rw [if_pos h1]⟩
  · by_cases h2 : normalizeSet l = (∅ : Finset α) ∨ normalizeSet r = (∅ : Finset α)
    · exact ⟨0, by rw [if_neg h1, if_pos h2]⟩
    · push_neg at h2
      have hU : 0 < (((normalizeSet l) ∪ (normalizeSet r)).card : ℚ) :=
        card_cast_pos fun h => h2.1 (Finset.union_eq_empty.mp h).1
      exact ⟨_, by rw [if_neg h1, if_neg (by push_neg; exact h2),
        truediv_of_ne _ _ (ne_of_gt hU)]⟩

theorem jaccard_index_total (l r : Option (Finset α)) :
    ∃ q, jaccard_index l r = some q := by
  rw [jaccard_index_eq]
  by_cases h1 : normalizeSet l = normalizeSet r
  · exact ⟨1, by rw [if_pos h1]⟩
  · by_cases h2 : normalizeSet l = (∅ : Finset α) ∨ normalizeSet r = (∅ : Finset α)
    · exact ⟨0, by rw [if_neg h1, if_pos h2]⟩
    · push_neg at h2
      have hI : (((normalizeSet l) ∩ (normalizeSet r)).card : ℚ) ≤
          ((normalizeSet l).card : ℚ) := by
        exact_mod_cast Finset.card_le_card Finset.inter_subset_left
      have hb : 0 < ((normalizeSet r).card : ℚ) := card_cast_pos h2.2
      have hne : ((normalizeSet l).card : ℚ) + ((normalizeSet r).card : ℚ) -
          (((normalizeSet l) ∩ (normalizeSet r)).card : ℚ) ≠ 0 := by
        intro h
        linarith
      exact ⟨_, by rw [if_neg h1, if_neg (by push_neg; exact h2),
        truediv_of_ne _ _ hne]⟩

theorem dice_coefficient_total (l r : Option (Finset α)) :
    ∃ q, dice_coefficient l r = some q := by
  rw [dice_coefficient_eq]
  by_cases h1 : normalizeSet l = normalizeSet r
  · exact ⟨1, by rw [if_pos h1]⟩
  · by_cases h2 : normalizeSet l = (∅ : Finset α) ∨ normalizeSet r = (∅ : Finset α)
    · exact ⟨0, by rw [if_neg h1, if_pos h2]⟩
    · push_neg at h2
      have ha : 0 < ((normalizeSet l).card : ℚ) := card_cast_pos h2.1
      have hb : 0 < ((normalizeSet r).card : ℚ) := card_cast_pos h2.2
      have hne : ((normalizeSet l).card : ℚ) + ((normalizeSet r).card : ℚ) ≠ 0 :=
        ne_of_gt (by linarith)
      exact ⟨_, by rw [if_neg h1, if_neg (by push_neg; exact h2),
        truediv_of_ne _ _ hne]⟩

theorem overlap_coefficient_total (l r : Option (Finset α)) :
    ∃ q, overlap_coefficient l r = some q := by
  rw [overlap_coefficient_eq]
  by_cases h1 : normalizeSet l = normalizeSet r
  · exact ⟨1, by rw [if_pos h1]⟩
  · by_cases h2 : normalizeSet l = (∅ : Finset α) ∨ normalizeSet r = (∅ : Finset α)
    · exact ⟨0, by rw [if_neg h1, if_pos h2]⟩
    · push_neg at h2
      have ha : 0 < (normalizeSet l).card :=
        Finset.card_pos.mpr (Finset.nonempty_iff_ne_empty.mpr h2.1)
      have hb : 0 < (normalizeSet r).card :=
        Finset.card_pos.mpr (Finset.nonempty_iff_ne_empty.mpr h2.2)
      have hmin : 0 < ((min (normalizeSet l).card (normalizeSet r).card : ℕ) : ℚ) := by
        exact_mod_cast lt_min ha hb
      exact ⟨_, by rw [if_neg h1, if_neg (by push_neg; exact h2),
        truediv_of_ne _ _ (ne_of_gt hmin)]⟩

theorem percentage_overlap_total (l r : Option (Finset α)) :
    ∃ q, percentage_overlap l r = some q := by
  rw [percentage_overlap_eq]
  by_cases h1 : normalizeSet l = normalizeSet r
  · exact ⟨100, by rw [if_pos h1]⟩
  · by_cases h2 : normalizeSet l = (∅ : Finset α) ∨ normalizeSet r = (∅ : Finset α)
    · exact ⟨0, by rw [if_neg h1, if_pos h2]⟩
    · push_neg at h2
      have ha : 0 < ((normalizeSet l).card : ℚ) := card_cast_pos h2.1
      have hb : 0 < ((normalizeSet r).card : ℚ) := card_cast_pos h2.2
      have hne : ((normalizeSet l).card : ℚ) + ((normalizeSet r).card : ℚ) ≠ 0 :=
        ne_of_gt (by linarith)
      exact ⟨_, by rw [if_neg h1, if_neg (by push_neg; exact h2),
        truediv_of_ne _ _ hne]; rfl⟩

/-- Claim C1 (amended): for every symmetric metric the shared zero-length
dispatch applies before the core formula: after normalizing absent inputs, if
the two sets are equal (which covers both sets empty) the dispatch returns the
default exact-match value 1.0, else if one set is empty it returns the default
empty-match value 0.0, else it delegates to the metric's core formula —
except that `percentage_overlap` scales the dispatch's result by 100, so its
exact-match value is 100.0, not 1.0. -/
theorem claim_C1 (l r : Option (Finset α)) :
    (jaccard_similarity l r =
      if normalizeSet l = normalizeSet r then some 1
      else if normalizeSet l = ∅ ∨ normalizeSet r = ∅ then some 0
      else
        truediv ((((normalizeSet l) ∩ (normalizeSet r)).card : ℚ))
          ((((normalizeSet l) ∪ (normalizeSet r)).card : ℚ))) ∧
    (jaccard_index l r =
      if normalizeSet l = normalizeSet r then some 1
      else if normalizeSet l = ∅ ∨ normalizeSet r = ∅ then some 0
      else
        truediv ((((normalizeSet l) ∩ (normalizeSet r)).card : ℚ))
          (((normalizeSet l).card : ℚ) + ((normalizeSet r).card : ℚ) -
            (((normalizeSet l) ∩ (normalizeSet r)).card : ℚ))) ∧
    (dice_coefficient l r =
      if normalizeSet l = normalizeSet r then some 1
      else if normalizeSet l = ∅ ∨ normalizeSet r = ∅ then some 0
      else
        truediv (2 * (((normalizeSet l) ∩ (normalizeSet r)).card : ℚ))
          (((normalizeSet l).card : ℚ) + ((normalizeSet r).card : ℚ))) ∧
    (overlap_coefficient l r =
      if normalizeSet l = normalizeSet r then some 1
      else if normalizeSet l = ∅ ∨ normalizeSet r = ∅ then some 0
      else
        truediv ((((normalizeSet l) ∩ (normalizeSet r)).card : ℚ))
          (((min (normalizeSet l).card (normalizeSet r).card : ℕ) : ℚ))) ∧
    (percentage_overlap l r =
      if normalizeSet l = normalizeSet r then some 100
      else if normalizeSet l = ∅ ∨ normalizeSet r = ∅ then some 0
      else
        (truediv ((((normalizeSet l) ∩ (normalizeSet r)).card : ℚ))
          (((normalizeSet l).card : ℚ) + ((normalizeSet r).card : ℚ))).map
          (fun x => x * 100)) :=
  ⟨jaccard_similarity_eq l r, jaccard_index_eq l r, dice_coefficient_eq l r,
    overlap_coefficient_eq l r, percentage_overlap_eq l r⟩

/-- Claim C1 fails as stated: on two empty sets `percentage_overlap` returns
100.0, not the default exact-match value 1.0, because the ×100 scaling is
applied to the dispatch's result as well. -/
theorem claim_C1_cex :
    percentage_overlap (some (∅ : Finset ℕ)) (some (∅ : Finset ℕ)) = some 100 ∧
    percentage_overlap (some (∅ : Finset ℕ)) (some (∅ : Finset ℕ)) ≠ some 1 := by
  have h : percentage_overlap (some (∅ : Finset ℕ)) (some (∅ : Finset ℕ)) = some 100 := by
    rw [percentage_overlap_eq, normalizeSet_some, if_pos rfl]
  exact ⟨h, by rw [h]; intro hc; exact absurd (Option.some.inj hc) (by norm_num)⟩

/-- Claim C2: on non-empty, unequal sets the core formulas give
`I/U`, `2I/(a+b)`, `I/min(a,b)` and `100·I/(a+b)`, and on the example
`A = {1,2,3}`, `B = {2,3,4}` the four metrics return 1/2, 2/3, 2/3 and 100/3. -/
theorem claim_C2 (A B : Finset α) (hA : A ≠ ∅) (hB : B ≠ ∅) (hAB : A ≠ B) :
    (jaccard_similarity (some A) (some B) =
      some (((A ∩ B).card : ℚ) / ((A ∪ B).card : ℚ))) ∧
    (dice_coefficient (some A) (some B) =
      some (2 * ((A ∩ B).card : ℚ) / ((A.card : ℚ) + (B.card : ℚ)))) ∧
    (overlap_coefficient (some A) (some B) =
      some (((A ∩ B).card : ℚ) / ((min A.card B.card : ℕ) : ℚ))) ∧
    (percentage_overlap (some A) (some B) =
      some (100 * ((A ∩ B).card : ℚ) / ((A.card : ℚ) + (B.card : ℚ)))) ∧
    (jaccard_similarity (some ({1, 2, 3} : Finset ℕ)) (some {2, 3, 4}) =
      some (1 / 2)) ∧
    (dice_coefficient (some ({1, 2, 3} : Finset ℕ)) (some {2, 3, 4}) =
      some (2 / 3)) ∧
    (overlap_coefficient (some ({1, 2, 3} : Finset ℕ)) (some {2, 3, 4}) =
      some (2 / 3)) ∧
    (percentage_overlap (some ({1, 2, 3} : Finset ℕ)) (some {2, 3, 4}) =
      some (100 / 3)) := by
  have hne : ¬(A = ∅ ∨ B = ∅) := by push_neg; exact ⟨hA, hB⟩
  have ha : 0 < (A.card : ℚ) := card_cast_pos hA
  have hb : 0 < (B.card : ℚ) := card_cast_pos hB
  have hU : ((A ∪ B).card : ℚ) ≠ 0 :=
    ne_of_gt (card_cast_pos fun h => hA (Finset.union_eq_empty.mp h).1)
  have hab : (A.card : ℚ) + (B.card : ℚ) ≠ 0 := ne_of_gt (by linarith)
  have hm : ((min A.card B.card : ℕ) : ℚ) ≠ 0 := by
    have h0 : 0 < min A.card B.card :=
      lt_min (Finset.card_pos.mpr (Finset.nonempty_iff_ne_empty.mpr hA))
        (Finset.card_pos.mpr (Finset.nonempty_iff_ne_empty.mpr hB))
    have h1 : (0 : ℚ) < ((min A.card B.card : ℕ) : ℚ) := by exact_mod_cast h0
    exact ne_of_gt h1
  have he1 : ({1, 2, 3} : Finset ℕ) ≠ {2, 3, 4} := by decide
  have he2 : ¬(({1, 2, 3} : Finset ℕ) = ∅ ∨ ({2, 3, 4} : Finset ℕ) = ∅) := by decide
  have hc1 : (({1, 2, 3} : Finset ℕ) ∩ {2, 3, 4}).card = 2 := by decide
  have hc2 : (({1, 2, 3} : Finset ℕ) ∪ {2, 3, 4}).card = 4 := by decide
  have hc3 : ({1, 2, 3} : Finset ℕ).card = 3 := by decide
  have hc4 : ({2, 3, 4} : Finset ℕ).card = 3 := by decide
  refine ⟨?_, ?_, ?_, ?_, ?_, ?_, ?_, ?_⟩
  · rw [jaccard_similarity_eq, normalizeSet_some, normalizeSet_some,
      if_neg hAB, if_neg hne, truediv_of_ne _ _ hU]
  · rw [dice_coefficient_eq, normalizeSet_some, normalizeSet_some,
      if_neg hAB, if_neg hne, truediv_of_ne _ _ hab]
  · rw [overlap_coefficient_eq, normalizeSet_some, normalizeSet_some,
      if_neg hAB, if_neg hne, truediv_of_ne _ _ hm]
  · rw [percentage_overlap_eq, normalizeSet_some, normalizeSet_some,
      if_neg hAB, if_neg hne, truediv_of_ne _ _ hab]
    have hmap : (some (((A ∩ B).card : ℚ) / ((A.card : ℚ) + (B.card : ℚ)))).map
        (fun x => x * 100) =
        some ((((A ∩ B).card : ℚ) / ((A.card : ℚ) + (B.card : ℚ))) * 100) := rfl
    rw [hmap]
    congr 1
    ring
  · rw [jaccard_similarity_eq, normalizeSet_some, normalizeSet_some,
      if_neg he1, if_neg he2, hc1, hc2, truediv_of_ne _ _ (by norm_num)]
    norm_num
  · rw [dice_coefficient_eq, normalizeSet_some, normalizeSet_some,
      if_neg he1, if_neg he2, hc1, hc3, hc4, truediv_of_ne _ _ (by norm_num)]
    norm_num
  · rw [overlap_coefficient_eq, normalizeSet_some, normalizeSet_some,
      if_neg he1, if_neg he2, hc1, hc3, hc4, truediv_of_ne _ _ (by norm_num)]
    norm_num
  · rw [percentage_overlap_eq, normalizeSet_some, normalizeSet_some,
      if_neg he1, if_neg he2, hc1, hc3, hc4, truediv_of_ne _ _ (by norm_num)]
    norm_num

/-- Witness for claim C2 at `A = {1,2,3}`, `B = {2,3,4}`. -/
theorem claim_C2_witness :
    (({1, 2, 3} : Finset ℕ) ≠ ∅ ∧ ({2, 3, 4} : Finset ℕ) ≠ ∅ ∧
      ({1, 2, 3} : Finset ℕ) ≠ {2, 3, 4}) ∧
    jaccard_similarity (some ({1, 2, 3} : Finset ℕ)) (some {2, 3, 4}) =
      some (((({1, 2, 3} : Finset ℕ) ∩ {2, 3, 4}).card : ℚ) /
        ((({1, 2, 3} : Finset ℕ) ∪ {2, 3, 4}).card : ℚ)) :=
  ⟨⟨by decide, by decide, by decide⟩,
    (claim_C2 ({1, 2, 3} : Finset ℕ) {2, 3, 4} (by decide) (by decide) (by decide)).1⟩

/-- Claim C3: every symmetric metric is symmetric in its two arguments,
including absent (`none`) and empty inputs. -/
theorem claim_C3 (l r : Option (Finset α)) :
    jaccard_similarity l r = jaccard_similarity r l ∧
    jaccard_index l r = jaccard_index r l ∧
    dice_coefficient l r = dice_coefficient r l ∧
    overlap_coefficient l r = overlap_coefficient r l ∧
    percentage_overlap l r = percentage_overlap r l :=
  ⟨jaccard_similarity_comm l r, jaccard_index_comm l r, dice_coefficient_comm l r,
    overlap_coefficient_comm l r, percentage_overlap_comm l r⟩

/-- Claim C4: `jaccard_similarity` and `jaccard_index`, though implemented with
different divisors, agree on every pair of inputs. -/
theorem claim_C4 (l r : Option (Finset α)) :
    jaccard_similarity l r = jaccard_index l r := by
  unfold jaccard_similarity jaccard_index
  congr 1
  funext ls rs
  have h := Finset.card_union_add_card_inter ls rs
  have h' : ((ls ∪ rs).card : ℚ) =
      (ls.card : ℚ) + (rs.card : ℚ) - ((ls ∩ rs).card : ℚ) := by
    have h2 : ((ls ∪ rs).card : ℚ) + ((ls ∩ rs).card : ℚ) =
        (ls.card : ℚ) + (rs.card : ℚ) := by exact_mod_cast h
    linarith
  rw [h']

/-- Claim C5 (amended): every symmetric metric short-circuits on equal inputs,
with `metric(A,A) = metric(∅,∅) = 1.0` for the four unscaled metrics while
`percentage_overlap(A,A) = percentage_overlap(∅,∅) = 100.0`; and for non-empty
`B`, all five metrics return 0.0 on `(B, ∅)`. -/
theorem claim_C5 (A B : Finset α) (hB : B ≠ ∅) :
    jaccard_similarity (some A) (some A) = some 1 ∧
    jaccard_index (some A) (some A) = some 1 ∧
    dice_coefficient (some A) (some A) = some 1 ∧
    overlap_coefficient (some A) (some A) = some 1 ∧
    percentage_overlap (some A) (some A) = some 100 ∧
    jaccard_similarity (some B) (some (∅ : Finset α)) = some 0 ∧
    jaccard_index (some B) (some (∅ : Finset α)) = some 0 ∧
    dice_coefficient (some B) (some (∅ : Finset α)) = some 0 ∧
    overlap_coefficient (some B) (some (∅ : Finset α)) = some 0 ∧
    percentage_overlap (some B) (some (∅ : Finset α)) = some 0 := by
  refine ⟨?_, ?_, ?_, ?_, ?_, ?_, ?_, ?_, ?_, ?_⟩
  · rw [jaccard_similarity_eq, normalizeSet_some, if_pos rfl]
  · rw [jaccard_index_eq, normalizeSet_some, if_pos rfl]
  · rw [dice_coefficient_eq, normalizeSet_some, if_pos rfl]
  · rw [overlap_coefficient_eq, normalizeSet_some, if_pos rfl]
  · rw [percentage_overlap_eq, normalizeSet_some, if_pos rfl]
  · rw [jaccard_similarity_eq, normalizeSet_some, normalizeSet_some,
      if_neg hB, if_pos (Or.inr rfl)]
  · rw [jaccard_index_eq, normalizeSet_some, normalizeSet_some,
      if_neg hB, if_pos (Or.inr rfl)]
  · rw [dice_coefficient_eq, normalizeSet_some, normalizeSet_some,
      if_neg hB, if_pos (Or.inr rfl)]
  · rw [overlap_coefficient_eq, normalizeSet_some, normalizeSet_some,
      if_neg hB, if_pos (Or.inr rfl)]
  · rw [percentage_overlap_eq, normalizeSet_some, normalizeSet_some,
      if_neg hB, if_pos (Or.inr rfl)]

/-- Witness for claim C5 at `A = ∅`, `B = {1}`, exercising the both-empty
convention and the one-empty case. -/
theorem claim_C5_witness :
    ({1} : Finset ℕ) ≠ ∅ ∧
    (jaccard_similarity (some (∅ : Finset ℕ)) (some (∅ : Finset ℕ)) = some 1 ∧
      jaccard_index (some (∅ : Finset ℕ)) (some (∅ : Finset ℕ)) = some 1 ∧
      dice_coefficient (some (∅ : Finset ℕ)) (some (∅ : Finset ℕ)) = some 1 ∧
      overlap_coefficient (some (∅ : Finset ℕ)) (some (∅ : Finset ℕ)) = some 1 ∧
      percentage_overlap (some (∅ : Finset ℕ)) (some (∅ : Finset ℕ)) = some 100 ∧
      jaccard_similarity (some ({1} : Finset ℕ)) (some (∅ : Finset ℕ)) = some 0 ∧
      jaccard_index (some ({1} : Finset ℕ)) (some (∅ : Finset ℕ)) = some 0 ∧
      dice_coefficient (some ({1} : Finset ℕ)) (some (∅ : Finset ℕ)) = some 0 ∧
      overlap_coefficient (some ({1} : Finset ℕ)) (some (∅ : Finset ℕ)) = some 0 ∧
      percentage_overlap (some ({1} : Finset ℕ)) (some (∅ : Finset ℕ)) = some 0) :=
  ⟨by decide, claim_C5 (∅ : Finset ℕ) {1} (by decide)⟩

/-- Claim C5 fails as stated: `percentage_overlap({1},{1})` is 100.0, not 1.0,
so `metric(A,A) = 1.0` does not hold for `percentage_overlap`. -/
theorem claim_C5_cex :
    percentage_overlap (some ({1} : Finset ℕ)) (some ({1} : Finset ℕ)) = some 100 ∧
    percentage_overlap (some ({1} : Finset ℕ)) (some ({1} : Finset ℕ)) ≠ some 1 := by
  have h : percentage_overlap (some ({1} : Finset ℕ)) (some ({1} : Finset ℕ)) =
      some 100 := by
    rw [percentage_overlap_eq, normalizeSet_some, if_pos rfl]
  exact ⟨h, by rw [h]; intro hc; exact absurd (Option.some.inj hc) (by norm_num)⟩

/-- Claim C6: `asymmetrical_overlap(A,B) = |A ∩ B| / |A|` for non-empty `A`; it
bypasses the zero-length dispatch, so an empty `A` divides by zero (raises)
instead of returning a value; on the examples it returns 2/3 and 1. -/
theorem claim_C6 (A B : Finset α) (hA : A ≠ ∅) :
    asymmetrical_overlap A B = some (((A ∩ B).card : ℚ) / (A.card : ℚ)) ∧
    (∀ C : Finset α, asymmetrical_overlap (∅ : Finset α) C = none) ∧
    asymmetrical_overlap ({1, 2, 3} : Finset ℕ) {2, 3} = some (2 / 3) ∧
    asymmetrical_overlap ({2, 3} : Finset ℕ) {1, 2, 3} = some 1 := by
  have hc1 : (({1, 2, 3} : Finset ℕ) ∩ {2, 3}).card = 2 := by decide
  have hc2 : ({1, 2, 3} : Finset ℕ).card = 3 := by decide
  have hc3 : (({2, 3} : Finset ℕ) ∩ {1, 2, 3}).card = 2 := by decide
  have hc4 : ({2, 3} : Finset ℕ).card = 2 := by decide
  refine ⟨?_, ?_, ?_, ?_⟩
  · unfold asymmetrical_overlap
    exact truediv_of_ne _ _ (ne_of_gt (card_cast_pos hA))
  · intro C
    simp [asymmetrical_overlap, truediv]
  · unfold asymmetrical_overlap
    rw [hc1, hc2, truediv_of_ne _ _ (by norm_num)]
    norm_num
  · unfold asymmetrical_overlap
    rw [hc3, hc4, truediv_of_ne _ _ (by norm_num)]
    norm_num

/-- Witness for claim C6 at `A = {1,2,3}`, `B = {2,3}`. -/
theorem claim_C6_witness :
    ({1, 2, 3} : Finset ℕ) ≠ ∅ ∧
    asymmetrical_overlap ({1, 2, 3} : Finset ℕ) {2, 3} =
      some (((({1, 2, 3} : Finset ℕ) ∩ {2, 3}).card : ℚ) /
        (({1, 2, 3} : Finset ℕ).card : ℚ)) :=
  ⟨by decide, (claim_C6 ({1, 2, 3} : Finset ℕ) {2, 3} (by decide)).1⟩

/-- Claim C7: no symmetric metric ever reaches its division with a zero
divisor: on every pair of inputs each of the five metrics returns a value
(never the `none` that models `ZeroDivisionError`). -/
theorem claim_C7 (l r : Option (Finset α)) :
    (∃ q, jaccard_similarity l r = some q) ∧
    (∃ q, jaccard_index l r = some q) ∧
    (∃ q, dice_coefficient l r = some q) ∧
    (∃ q, overlap_coefficient l r = some q) ∧
    (∃ q, percentage_overlap l r = some q) :=
  ⟨jaccard_similarity_total l r, jaccard_index_total l r, dice_coefficient_total l r,
    overlap_coefficient_total l r, percentage_overlap_total l r⟩

theorem getD_of_total {o : Option ℚ} (h : ∃ q, o = some q) :
    o = some (o.getD 0) := by
  obtain ⟨q, rfl⟩ := h
  rfl

theorem jaccardLift_comm (s t : Finset α) : jaccardLift s t = jaccardLift t s :=
  jaccard_index_comm (some s) (some t)

theorem jaccardLift_self (s : Finset α) : jaccardLift s s = some 1 := by
  unfold jaccardLift
  rw [jaccard_index_eq, normalizeSet_some, if_pos rfl]

theorem jaccardLift_total (s t : Finset α) : ∃ q, jaccardLift s t = some q :=
  jaccard_index_total (some s) (some t)

theorem jaccardLift_empty_right (A : Finset α) (hA : A ≠ ∅) :
    jaccardLift A ∅ = some 0 := by
  unfold jaccardLift
  rw [jaccard_index_eq, normalizeSet_some, normalizeSet_some,
    if_neg hA, if_pos (Or.inr rfl)]

theorem jaccardLift_empty_left (A : Finset α) (hA : A ≠ ∅) :
    jaccardLift ∅ A = some 0 := by
  unfold jaccardLift
  rw [jaccard_index_eq, normalizeSet_some, normalizeSet_some,
    if_neg (fun h => hA h.symm), if_pos (Or.inl rfl)]

omit [DecidableEq α] in
theorem storeNames_of_nonempty (l : List (StoreFrame α))
    (h : ∀ s ∈ l, s.store_ids ≠ []) :
    storeNames l = some (l.map fun s => s.store_ids.headD "") := by
  induction l with
  | nil => rfl
  | cons s rest ih =>
    have hs := h s (List.mem_cons_self s rest)
    have hrest := ih fun t ht => h t (List.mem_cons_of_mem s ht)
    cases hids : s.store_ids with
    | nil => exact absurd hids hs
    | cons a t => simp [storeNames, hids, hrest]

omit [DecidableEq α] in
theorem storeNames_of_empty (l : List (StoreFrame α))
    (h : ∃ s ∈ l, s.store_ids = []) : storeNames l = none := by
  induction l with
  | nil => simp at h
  | cons s rest ih =>
    obtain ⟨t, ht, hts⟩ := h
    rcases List.mem_cons.mp ht with rfl | htr
    · unfold storeNames
      rw [hts]
      rfl
    · have hrest := ih ⟨t, htr, hts⟩
      unfold storeNames
      rw [hrest]
      cases s.store_ids.head? <;> rfl

omit [DecidableEq α] in
theorem runLoop_total (f : Finset α → Finset α → Option ℚ)
    (sets : List (Finset α)) (g : Nat → Nat → ℚ) (ps : List (Nat × Nat))
    (hg : ∀ p ∈ ps, f (sets.getD p.1 ∅) (sets.getD p.2 ∅) = some (g p.1 p.2)) :
    ∀ M, runLoop f sets ps M = some (runPure g ps M) := by
  induction ps with
  | nil => intro M; rfl
  | cons p rest ih =>
    intro M
    have hp := hg p (List.mem_cons_self p rest)
    unfold runLoop runPure
    rw [hp]
    exact ih (fun q hq => hg q (List.mem_cons_of_mem p hq)) _

omit [DecidableEq α] in
theorem runLoop_fail (f : Finset α → Finset α → Option ℚ)
    (sets : List (Finset α)) (ps : List (Nat × Nat))
    (h : ∃ p ∈ ps, f (sets.getD p.1 ∅) (sets.getD p.2 ∅) = none) :
    ∀ M, runLoop f sets ps M = none := by
  induction ps with
  | nil => simp at h
  | cons p rest ih =>
    intro M
    obtain ⟨q, hq, hqn⟩ := h
    rcases List.mem_cons.mp hq with rfl | hqr
    · unfold runLoop
      rw [hqn]
    · unfold runLoop
      cases hfp : f (sets.getD p.1 ∅) (sets.getD p.2 ∅) with
      | none => rfl
      | some v => exact ih ⟨q, hqr, hqn⟩ _

theorem writeCell_pair_symm (M : Nat → Nat → Option ℚ) (i j : Nat) (v : ℚ)
    (hM : ∀ a b, M a b = M b a) :
    ∀ a b, writeCell (writeCell M i j v) j i v a b =
      writeCell (writeCell M i j v) j i v b a := by
  intro a b
  unfold writeCell
  split_ifs <;> first | rfl | exact hM a b | tauto

omit [DecidableEq α] in
theorem runLoop_symm (f : Finset α → Finset α → Option ℚ)
    (sets : List (Finset α)) (ps : List (Nat × Nat)) :
    ∀ M M', (∀ a b, M a b = M b a) → runLoop f sets ps M = some M' →
      ∀ a b, M' a b = M' b a := by
  induction ps with
  | nil =>
    intro M M' hM h
    cases h
    exact hM
  | cons p rest ih =>
    intro M M' hM h
    unfold runLoop at h
    cases hfp : f (sets.getD p.1 ∅) (sets.getD p.2 ∅) with
    | none =>
      rw [hfp] at h
      exact Option.noConfusion h
    | some v =>
      rw [hfp] at h
      exact ih _ _ (writeCell_pair_symm M p.1 p.2 v hM) h

theorem runPure_untouched (g : Nat → Nat → ℚ) (ps : List (Nat × Nat)) (a b : Nat)
    (h1 : (a, b) ∉ ps) (h2 : (b, a) ∉ ps) :
    ∀ M, runPure g ps M a b = M a b := by
  induction ps with
  | nil => intro M; rfl
  | cons p rest ih =>
    intro M
    unfold runPure
    rw [ih (fun h => h1 (List.mem_cons_of_mem p h))
      (fun h => h2 (List.mem_cons_of_mem p h))]
    have hne1 : ¬(a = p.2 ∧ b = p.1) := by
      rintro ⟨rfl, rfl⟩
      exact h2 (List.mem_cons_self p rest)
    have hne2 : ¬(a = p.1 ∧ b = p.2) := by
      rintro ⟨rfl, rfl⟩
      exact h1 (List.mem_cons_self p rest)
    unfold writeCell
    rw [if_neg hne1, if_neg hne2]

theorem runPure_write (g : Nat → Nat → ℚ) (ps : List (Nat × Nat)) (a b : Nat)
    (v : ℚ) (hmem : (a, b) ∈ ps ∨ (b, a) ∈ ps)
    (hval : ∀ p ∈ ps, p = (a, b) ∨ p = (b, a) → g p.1 p.2 = v) :
    ∀ M, runPure g ps M a b = some v := by
  induction ps with
  | nil => simp at hmem
  | cons p rest ih =>
    intro M
    by_cases hrest : (a, b) ∈ rest ∨ (b, a) ∈ rest
    · unfold runPure
      exact ih hrest (fun q hq hq2 => hval q (List.mem_cons_of_mem p hq) hq2) _
    · push_neg at hrest
      have hp : p = (a, b) ∨ p = (b, a) := by
        rcases hmem with h | h
        · rcases List.mem_cons.mp h with h' | h'
          · exact Or.inl h'.symm
          · exact absurd h' hrest.1
        · rcases List.mem_cons.mp h with h' | h'
          · exact Or.inr h'.symm
          · exact absurd h' hrest.2
      have hv := hval p (List.mem_cons_self p rest) hp
      unfold runPure
      rw [runPure_untouched g rest a b hrest.1 hrest.2]
      rcases hp with rfl | rfl
      · unfold writeCell
        by_cases hab : a = b
        · subst hab
          simp [hv]
        · rw [if_neg (fun h => hab h.1), if_pos ⟨rfl, rfl⟩, hv]
      · unfold writeCell
        rw [if_pos ⟨rfl, rfl⟩, hv]

theorem mem_iterPairs (n : Nat) (all : Bool) (i j : Nat) :
    (i, j) ∈ iterPairs n all ↔ i < n ∧ j < n ∧ (all = false → i ≤ j) := by
  unfold iterPairs
  constructor
  · intro h
    obtain ⟨a, ha, h2⟩ := List.mem_flatMap.mp h
    obtain ⟨b, hb, heq⟩ := List.mem_map.mp h2
    injection heq with hai hbj
    subst hai
    subst hbj
    have ha' := List.mem_range.mp ha
    have hb' := List.mem_range'_1.mp hb
    cases all <;> (simp_all; try omega)
  · rintro ⟨hi, hj, hij⟩
    refine List.mem_flatMap.mpr ⟨i, List.mem_range.mpr hi, ?_⟩
    refine List.mem_map.mpr ⟨j, List.mem_range'_1.mpr ?_, rfl⟩
    cases all <;> (simp_all; try omega)

/-- Claim C8: when every store frame has a first store-id value,
`calculate_overlap_for_stores` returns a matrix indexed by the store names;
the matrix is symmetric for any overlap function, because each computed value
is written to both cells unconditionally, and under the default
`jaccard_index` metric its diagonal entries are all 1.0, in full-matrix and in
triangular mode alike. -/
theorem claim_C8 (store_data : List (StoreFrame α)) (pre : List α → List α)
    (allCells : Bool) (hnames : ∀ s ∈ store_data, s.store_ids ≠ []) :
    (∀ (f : Finset α → Finset α → Option ℚ) ns M,
      calculate_overlap_for_stores store_data f pre allCells = some (ns, M) →
      ∀ a b, M a b = M b a) ∧
    (∃ M, calculate_overlap_for_stores store_data jaccardLift pre allCells =
        some (store_data.map fun s => s.store_ids.headD "", M) ∧
      (∀ a b, M a b = M b a) ∧
      ∀ i, i < store_data.length → M i i = some 1) := by
  constructor
  · intro f ns M h
    unfold calculate_overlap_for_stores at h
    cases hsn : storeNames store_data with
    | none =>
      rw [hsn] at h
      exact Option.noConfusion h
    | some ns' =>
      rw [hsn] at h
      cases hrl : runLoop f (storeSets store_data pre)
          (iterPairs store_data.length allCells) (fun _ _ => none) with
      | none =>
        rw [hrl] at h
        exact Option.noConfusion h
      | some M' =>
        rw [hrl] at h
        have h2 : (ns', M') = (ns, M) := Option.some.inj h
        have hM : M' = M := congrArg Prod.snd h2
        rw [← hM]
        refine runLoop_symm f _ _ _ _ ?_ hrl
        intro a b
        rfl
  · have hgtot : ∀ p ∈ iterPairs store_data.length allCells,
        jaccardLift ((storeSets store_data pre).getD p.1 ∅)
          ((storeSets store_data pre).getD p.2 ∅) =
        some ((jaccardLift ((storeSets store_data pre).getD p.1 ∅)
          ((storeSets store_data pre).getD p.2 ∅)).getD 0) :=
      fun p _ => getD_of_total (jaccardLift_total _ _)
    have hloop := runLoop_total jaccardLift (storeSets store_data pre)
      (fun i j => (jaccardLift ((storeSets store_data pre).getD i ∅)
        ((storeSets store_data pre).getD j ∅)).getD 0)
      (iterPairs store_data.length allCells) hgtot (fun _ _ => none)
    refine ⟨runPure (fun i j => (jaccardLift ((storeSets store_data pre).getD i ∅)
        ((storeSets store_data pre).getD j ∅)).getD 0)
      (iterPairs store_data.length allCells) (fun _ _ => none), ?_, ?_, ?_⟩
    · unfold calculate_overlap_for_stores
      rw [storeNames_of_nonempty store_data hnames, hloop]
      rfl
    · refine runLoop_symm jaccardLift _ _ _ _ ?_ hloop
      intro a b
      rfl
    · intro i hi
      have hmem : (i, i) ∈ iterPairs store_data.length allCells :=
        (mem_iterPairs store_data.length allCells i i).mpr
          ⟨hi, hi, fun _ => le_refl i⟩
      have hw := runPure_write
        (fun i j => (jaccardLift ((storeSets store_data pre).getD i ∅)
          ((storeSets store_data pre).getD j ∅)).getD 0)
        (iterPairs store_data.length allCells) i i
        ((jaccardLift ((storeSets store_data pre).getD i ∅)
          ((storeSets store_data pre).getD i ∅)).getD 0)
        (Or.inl hmem)
        (fun p _ hp => by rcases hp with rfl | rfl <;> rfl)
        (fun _ _ => none)
      rw [hw, jaccardLift_self]
      rfl

/-- Witness for claim C8 on a single one-row store. -/
theorem claim_C8_witness :
    (∀ s ∈ [(⟨["a"], [1], rfl⟩ : StoreFrame ℕ)], s.store_ids ≠ []) ∧
    ((∀ (f : Finset ℕ → Finset ℕ → Option ℚ) ns M,
      calculate_overlap_for_stores [(⟨["a"], [1], rfl⟩ : StoreFrame ℕ)] f id true =
        some (ns, M) →
      ∀ a b, M a b = M b a) ∧
    (∃ M, calculate_overlap_for_stores [(⟨["a"], [1], rfl⟩ : StoreFrame ℕ)]
        jaccardLift id true =
        some ([(⟨["a"], [1], rfl⟩ : StoreFrame ℕ)].map fun s => s.store_ids.headD "", M) ∧
      (∀ a b, M a b = M b a) ∧
      ∀ i, i < [(⟨["a"], [1], rfl⟩ : StoreFrame ℕ)].length → M i i = some 1)) :=
  ⟨by decide, claim_C8 [(⟨["a"], [1], rfl⟩ : StoreFrame ℕ)] id true (by decide)⟩

/-- Claim C9 (amended): an empty group list yields an empty matrix and a
single store with a non-empty frame yields a 1×1 matrix with entry 1.0; a
product set that is empty (for instance after preprocessing) degrades to the
empty-set policy of the default metric (1.0 against empty, 0.0 against
non-empty); but a store whose frame has no rows — which is what an empty
identifier column means in a DataFrame — makes the driver raise `IndexError`
while extracting the store names, so empty input IS a fatal error there. -/
theorem claim_C9 (f : Finset α → Finset α → Option ℚ) (pre : List α → List α)
    (all : Bool) (store_data : List (StoreFrame α)) (s : StoreFrame α)
    (hs : s.store_ids ≠ []) (A : Finset α) (hA : A ≠ ∅) :
    calculate_overlap_for_stores ([] : List (StoreFrame α)) f pre all =
      some ([], fun _ _ => none) ∧
    ((∃ t ∈ store_data, t.store_ids = []) →
      calculate_overlap_for_stores store_data f pre all = none) ∧
    (∃ M, calculate_overlap_for_stores [s] jaccardLift pre all =
      some ([s.store_ids.headD ""], M) ∧ M 0 0 = some 1) ∧
    jaccardLift (∅ : Finset α) (∅ : Finset α) = some 1 ∧
    jaccardLift A (∅ : Finset α) = some 0 ∧
    jaccardLift (∅ : Finset α) A = some 0 := by
  refine ⟨?_, ?_, ?_, jaccardLift_self ∅, jaccardLift_empty_right A hA,
    jaccardLift_empty_left A hA⟩
  · cases all <;> rfl
  · intro hex
    unfold calculate_overlap_for_stores
    rw [storeNames_of_empty store_data hex]
    rfl
  · have hps : iterPairs ([s] : List (StoreFrame α)).length all = [(0, 0)] := by
      cases all <;> rfl
    have hloop := runLoop_total jaccardLift (storeSets [s] pre)
      (fun i j => (jaccardLift ((storeSets [s] pre).getD i ∅)
        ((storeSets [s] pre).getD j ∅)).getD 0) [(0, 0)]
      (fun p _ => getD_of_total (jaccardLift_total _ _))
      (fun _ _ => none)
    refine ⟨runPure (fun i j => (jaccardLift ((storeSets [s] pre).getD i ∅)
        ((storeSets [s] pre).getD j ∅)).getD 0) [(0, 0)] (fun _ _ => none), ?_, ?_⟩
    · unfold calculate_overlap_for_stores
      rw [hps, storeNames_of_nonempty [s] (by
        intro t ht
        rcases List.mem_singleton.mp ht with rfl
        exact hs), hloop]
      rfl
    · have hw := runPure_write
        (fun i j => (jaccardLift ((storeSets [s] pre).getD i ∅)
          ((storeSets [s] pre).getD j ∅)).getD 0) [(0, 0)] 0 0
        ((jaccardLift ((storeSets [s] pre).getD 0 ∅)
          ((storeSets [s] pre).getD 0 ∅)).getD 0)
        (Or.inl (List.mem_singleton.mpr rfl))
        (fun p _ hp => by rcases hp with rfl | rfl <;> rfl)
        (fun _ _ => none)
      rw [hw, jaccardLift_self]
      rfl

/-- Witness for claim C9 with a one-row store, a rowless store and `A = {1}`. -/
theorem claim_C9_witness :
    ((⟨["a"], [1], rfl⟩ : StoreFrame ℕ).store_ids ≠ [] ∧ ({1} : Finset ℕ) ≠ ∅) ∧
    (calculate_overlap_for_stores ([] : List (StoreFrame ℕ)) jaccardLift id false =
      some ([], fun _ _ => none) ∧
    ((∃ t ∈ [(⟨[], [], rfl⟩ : StoreFrame ℕ)], t.store_ids = []) →
      calculate_overlap_for_stores [(⟨[], [], rfl⟩ : StoreFrame ℕ)] jaccardLift id false =
        none) ∧
    (∃ M, calculate_overlap_for_stores [(⟨["a"], [1], rfl⟩ : StoreFrame ℕ)]
        jaccardLift id false =
      some ([(⟨["a"], [1], rfl⟩ : StoreFrame ℕ).store_ids.headD ""], M) ∧
      M 0 0 = some 1) ∧
    jaccardLift (∅ : Finset ℕ) (∅ : Finset ℕ) = some 1 ∧
    jaccardLift ({1} : Finset ℕ) (∅ : Finset ℕ) = some 0 ∧
    jaccardLift (∅ : Finset ℕ) ({1} : Finset ℕ) = some 0) :=
  ⟨⟨by decide, by decide⟩,
    claim_C9 jaccardLift id false [(⟨[], [], rfl⟩ : StoreFrame ℕ)]
      (⟨["a"], [1], rfl⟩ : StoreFrame ℕ) (by decide) ({1} : Finset ℕ) (by decide)⟩

/-- Claim C9 fails as stated: a group whose identifier column is empty means a
frame with no rows, and on such input the driver returns no matrix at all —
`store[store_id_column].values[0]` raises `IndexError` — rather than degrading
to the empty-set policy. -/
theorem claim_C9_cex :
    calculate_overlap_for_stores [(⟨[], [], rfl⟩ : StoreFrame ℕ)]
      jaccardLift id false = none := rfl

/-- Claim C10: for a symmetric overlap function, full-matrix mode and
triangular-plus-mirroring mode produce identical results on every store list. -/
theorem claim_C10 (f : Finset α → Finset α → Option ℚ)
    (hf : ∀ s t, f s t = f t s) (store_data : List (StoreFrame α))
    (pre : List α → List α) :
    calculate_overlap_for_stores store_data f pre true =
      calculate_overlap_for_stores store_data f pre false := by
  by_cases hP : ∀ i j, i < store_data.length → j < store_data.length →
      ∃ q, f ((storeSets store_data pre).getD i ∅)
        ((storeSets store_data pre).getD j ∅) = some q
  · have hg : ∀ (all : Bool), ∀ p ∈ iterPairs store_data.length all,
        f ((storeSets store_data pre).getD p.1 ∅)
          ((storeSets store_data pre).getD p.2 ∅) =
        some ((f ((storeSets store_data pre).getD p.1 ∅)
          ((storeSets store_data pre).getD p.2 ∅)).getD 0) := by
      intro all p hp
      obtain ⟨h1, h2, _⟩ := (mem_iterPairs store_data.length all p.1 p.2).mp hp
      obtain ⟨q, hq⟩ := hP p.1 p.2 h1 h2
      rw [hq]
      rfl
    have hloopT := runLoop_total f (storeSets store_data pre)
      (fun i j => (f ((storeSets store_data pre).getD i ∅)
        ((storeSets store_data pre).getD j ∅)).getD 0)
      (iterPairs store_data.length true) (hg true) (fun _ _ => none)
    have hloopF := runLoop_total f (storeSets store_data pre)
      (fun i j => (f ((storeSets store_data pre).getD i ∅)
        ((storeSets store_data pre).getD j ∅)).getD 0)
      (iterPairs store_data.length false) (hg false) (fun _ _ => none)
    have hgsym : ∀ a b, (f ((storeSets store_data pre).getD a ∅)
        ((storeSets store_data pre).getD b ∅)).getD 0 =
        (f ((storeSets store_data pre).getD b ∅)
          ((storeSets store_data pre).getD a ∅)).getD 0 := by
      intro a b
      rw [hf]
    have hMeq : runPure (fun i j => (f ((storeSets store_data pre).getD i ∅)
        ((storeSets store_data pre).getD j ∅)).getD 0)
        (iterPairs store_data.length true) (fun _ _ => none) =
        runPure (fun i j => (f ((storeSets store_data pre).getD i ∅)
          ((storeSets store_data pre).getD j ∅)).getD 0)
        (iterPairs store_data.length false) (fun _ _ => none) := by
      funext a b
      by_cases hab : a < store_data.length ∧ b < store_data.length
      · have hvT := runPure_write
          (fun i j => (f ((storeSets store_data pre).getD i ∅)
            ((storeSets store_data pre).getD j ∅)).getD 0)
          (iterPairs store_data.length true) a b
          ((f ((storeSets store_data pre).getD a ∅)
            ((storeSets store_data pre).getD b ∅)).getD 0)
          (Or.inl ((mem_iterPairs store_data.length true a b).mpr
            ⟨hab.1, hab.2, fun h => Bool.noConfusion h⟩))
          (fun p _ hp => by rcases hp with rfl | rfl
                            · rfl
                            · exact hgsym b a)
          (fun _ _ => none)
        have hmemF : (a, b) ∈ iterPairs store_data.length false ∨
            (b, a) ∈ iterPairs store_data.length false := by
          rcases Nat.le_total a b with hle | hle
          · exact Or.inl ((mem_iterPairs store_data.length false a b).mpr
              ⟨hab.1, hab.2, fun _ => hle⟩)
          · exact Or.inr ((mem_iterPairs store_data.length false b a).mpr
              ⟨hab.2, hab.1, fun _ => hle⟩)
        have hvF := runPure_write
          (fun i j => (f ((storeSets store_data pre).getD i ∅)
            ((storeSets store_data pre).getD j ∅)).getD 0)
          (iterPairs store_data.length false) a b
          ((f ((storeSets store_data pre).getD a ∅)
            ((storeSets store_data pre).getD b ∅)).getD 0)
          hmemF
          (fun p _ hp => by rcases hp with rfl | rfl
                            · rfl
                            · exact hgsym b a)
          (fun _ _ => none)
        rw [hvT, hvF]
      · have hnm : ∀ (all : Bool) (x y : Nat), ¬(x < store_data.length ∧
            y < store_data.length) → (x, y) ∉ iterPairs store_data.length all := by
          intro all x y hxy hmem
          obtain ⟨h1, h2, _⟩ := (mem_iterPairs store_data.length all x y).mp hmem
          exact hxy ⟨h1, h2⟩
        have hab' : ¬(b < store_data.length ∧ a < store_data.length) :=
          fun h => hab ⟨h.2, h.1⟩
        rw [runPure_untouched _ _ a b (hnm true a b hab) (hnm true b a hab'),
          runPure_untouched _ _ a b (hnm false a b hab) (hnm false b a hab')]
    unfold calculate_overlap_for_stores
    rw [hloopT, hloopF, hMeq]
  · push_neg at hP
    obtain ⟨i, j, hi, hj, hnone⟩ := hP
    have hij : f ((storeSets store_data pre).getD i ∅)
        ((storeSets store_data pre).getD j ∅) = none := by
      cases hfij : f ((storeSets store_data pre).getD i ∅)
          ((storeSets store_data pre).getD j ∅) with
      | none => rfl
      | some q => exact absurd hfij (hnone q)
    have hji : f ((storeSets store_data pre).getD j ∅)
        ((storeSets store_data pre).getD i ∅) = none := by
      rw [hf]
      exact hij
    have hfailT := runLoop_fail f (storeSets store_data pre)
      (iterPairs store_data.length true)
      ⟨(i, j), (mem_iterPairs store_data.length true i j).mpr
        ⟨hi, hj, fun h => Bool.noConfusion h⟩, hij⟩ (fun _ _ => none)
    have hfailF : runLoop f (storeSets store_data pre)
        (iterPairs store_data.length false) (fun _ _ => none) = none := by
      rcases Nat.le_total i j with hle | hle
      · exact runLoop_fail f (storeSets store_data pre) _
          ⟨(i, j), (mem_iterPairs store_data.length false i j).mpr
            ⟨hi, hj, fun _ => hle⟩, hij⟩ (fun _ _ => none)
      · exact runLoop_fail f (storeSets store_data pre) _
          ⟨(j, i), (mem_iterPairs store_data.length false j i).mpr
            ⟨hj, hi, fun _ => hle⟩, hji⟩ (fun _ _ => none)
    unfold calculate_overlap_for_stores
    rw [hfailT, hfailF]

/-- Witness for claim C10 with the symmetric default metric on two stores. -/
theorem claim_C10_witness :
    (∀ s t : Finset ℕ, jaccardLift s t = jaccardLift t s) ∧
    calculate_overlap_for_stores
        [(⟨["a"], [1], rfl⟩ : StoreFrame ℕ), (⟨["b"], [2], rfl⟩ : StoreFrame ℕ)]
        jaccardLift id true =
      calculate_overlap_for_stores
        [(⟨["a"], [1], rfl⟩ : StoreFrame ℕ), (⟨["b"], [2], rfl⟩ : StoreFrame ℕ)]
        jaccardLift id false :=
  ⟨jaccardLift_comm,
    claim_C10 jaccardLift jaccardLift_comm
      [(⟨["a"], [1], rfl⟩ : StoreFrame ℕ), (⟨["b"], [2], rfl⟩ : StoreFrame ℕ)] id⟩

end Overlap
